import Mathlib

/-!
Verification of the PLONK prover core in internal/backend/bn256/plonk/prove.go.

The field of scalars is embedded as an arbitrary computable field F (the source
works over the bn256 scalar field; every algorithm below is generic in the
field operations, and concrete checks instantiate F with ZMod 17, which carries
the 16th roots of unity needed for a cardinality-2 domain and its size-8
extension).   Buffers ([]fr.Element) are embedded as List F, or as Nat → F for
the in-place index-juggling loop of evalIDCosets.  Go in-place writes are
mirrored by folds performing one List.set (or one function update) per source
assignment, in source order, so read-after-write behaviour is preserved.
-/

namespace Plonk

/-- Domain as used by the prover: source struct fft.Domain (the fft package is
not under src, so only the three fields the prover reads are modelled). -/
structure Domain (F : Type) where
  Cardinality : Nat
  Generator : F
  FinerGenerator : F

/-- PublicRaw, the preprocessed public data read by the prover.  The
CommitmentScheme handle is passed to Prove separately as two functions. -/
structure PublicRaw (F : Type) where
  DomainNum : Domain F
  DomainH : Domain F
  Ql : List F
  Qr : List F
  Qm : List F
  Qo : List F
  Qk : List F
  LS1 : List F
  LS2 : List F
  LS3 : List F
  CS1 : List F
  CS2 : List F
  CS3 : List F
  Shifter : Fin 2 → F

/-- The four fixed protocol constants (package-level vars zeta, vBundle,
gamma, alpha in the source). -/
structure Consts (F : Type) where
  zeta : F
  vBundle : F
  gamma : F
  alpha : F

/-- A sparse constraint system as the prover reads it: each constraint and
each assertion exposes the variable ids of its L, R, O wires. -/
structure SparseR1CS where
  Constraints : List (Nat × Nat × Nat)
  Assertions : List (Nat × Nat × Nat)

/-- PLONK proof: five claimed evaluations, the shifted evaluation of Z, and
the two opening-proof objects produced by the external commitment scheme. -/
structure Proof (F B OP : Type) where
  LROHZ : Fin 5 → F
  ZShift : F
  BatchOpenings : B
  OpeningZShift : OP

/-- The Go zero value of Proof, as produced by the literal at the end of
Prove in the source; b0 and o0 stand for the zero values of the two external
opening-proof types. -/
def emptyProof {F B OP : Type} [Zero F] (b0 : B) (o0 : OP) : Proof F B OP :=
  ⟨fun _ => 0, 0, b0, o0⟩

/-- Reverse the k low bits of i (accumulator form). -/
def bitrevAux : Nat → Nat → Nat → Nat
  | 0, _, acc => acc
  | k + 1, i, acc => bitrevAux k (i / 2) (2 * acc + i % 2)

/-- Base-2 logarithm by fuel recursion (agrees with the usual log2; written
with structural recursion so that the kernel can evaluate it). -/
def log2Fuel : Nat → Nat → Nat
  | 0, _ => 0
  | fuel + 1, n => if n ≥ 2 then log2Fuel fuel (n / 2) + 1 else 0

/-- Base-2 logarithm of n (number of bits of an index into a power-of-two
sized buffer). -/
def log2n (n : Nat) : Nat := log2Fuel n n

/-- Bit-reversal of index i for a buffer of (power-of-two) length n. -/
def bitrev (n i : Nat) : Nat := bitrevAux (log2n n) i 0

variable {F : Type}

/-- Modelled from the spec: direct evaluation of a coefficient-form
polynomial via Horner's method (the bn256 Poly.Eval used by Prove is not
under src; section 8 of the spec fixes Horner evaluation as its meaning). -/
def evalPoly [Field F] (p : List F) (x : F) : F :=
  p.foldr (fun a acc => a + x * acc) 0

/-- The Go idiom of allocating a length-n zero buffer and copying a list into
it (truncating or zero-padding to length n). -/
def padTo [Field F] (n : Nat) (p : List F) : List F :=
  List.ofFn (fun i : Fin n => p.getD i 0)

/-- Modelled from the spec: Domain.FFT (the fft package is not under src).
Per section 4.1, FFT with decimation DIF and coset index c evaluates a
coefficient-form sequence of length Cardinality at the points
FinerGenerator^c * Generator^i, delivering the results in bit-reversed
order.  As a linear invertible map this characterisation determines its
action on every input, which is what is used here. -/
def fftModel [Field F] (d : Domain F) (a : List F) (c : Nat) : List F :=
  List.ofFn (fun k : Fin d.Cardinality =>
    evalPoly a (d.FinerGenerator ^ c * d.Generator ^ bitrev d.Cardinality k))

/-- Modelled from the spec: fft.BitReverse permutes a sequence by the
bit-reversal permutation on its indices. -/
def BitReverse [Field F] (a : List F) : List F :=
  List.ofFn (fun k : Fin a.length => a.getD (bitrev a.length k) 0)

/-- One coefficient of the inverse DFT on the coset FinerGenerator^c * <Generator>:
for values v with v t = P(shift * Generator^t), coefficient j of P. -/
def invDFTCoeff [Field F] (d : Domain F) (a : List F) (c : Nat) (j : Nat) : F :=
  (d.Cardinality : F)⁻¹ * ((d.FinerGenerator ^ c)⁻¹) ^ j *
    (List.range d.Cardinality).foldr
      (fun t acc => a.getD t 0 * (d.Generator⁻¹) ^ (t * j) + acc) 0

/-- Modelled from the spec: Domain.FFTInverse (fft package not under src).
Per section 4.1 it is the exact inverse of FFT up to the same bit-reversal
convention: applied to natural-order evaluations on the coset
FinerGenerator^c * <Generator>, it returns the coefficients in bit-reversed
order, so that a following BitReverse yields canonical coefficient form. -/
def fftInverseModel [Field F] (d : Domain F) (a : List F) (c : Nat) : List F :=
  List.ofFn (fun k : Fin d.Cardinality => invDFTCoeff d a c (bitrev d.Cardinality k))

/-- evaluateCosets from the source: four copies of poly are made; the source
then calls FFT on buffers 0, 1, 0, 1 (at coset indices 1, 3, 5, 7), bit-reverses
all four buffers, and interleaves them as res[4i+j] = buffer_j[i]. -/
def evaluateCosets [Field F] (d : Domain F) (poly : List F) : List F :=
  let n := d.Cardinality
  let e0 := BitReverse (fftModel d (fftModel d (padTo n poly) 1) 5)
  let e1 := BitReverse (fftModel d (fftModel d (padTo n poly) 3) 7)
  let e2 := BitReverse (padTo n poly)
  let e3 := BitReverse (padTo n poly)
  List.ofFn (fun m : Fin (4 * n) =>
    if (m : Nat) % 4 = 0 then e0.getD ((m : Nat) / 4) 0
    else if (m : Nat) % 4 = 1 then e1.getD ((m : Nat) / 4) 0
    else if (m : Nat) % 4 = 2 then e2.getD ((m : Nat) / 4) 0
    else e3.getD ((m : Nat) / 4) 0)

/-- A Go loop of the shape: for k in 0..len-1, xs[off+k] = v k.  Writes are
performed in ascending order by one List.set per source assignment. -/
def writeSeq [Field F] (xs : List F) (off : Nat) (v : Nat → F) : Nat → List F
  | 0 => xs
  | len + 1 => (writeSeq xs off v len).set (off + len) (v len)

/-- One wire buffer of ComputeLRO, for the wire selected by w: a zero buffer
of the domain cardinality filled by the three loops of the source (constraint
rows, assertion rows, dummy padding rows reading solution[0]). -/
def lroFill [Field F] (spr : SparseR1CS) (pd : PublicRaw F) (solution : List F)
    (w : Nat × Nat × Nat → Nat) : List F :=
  let s := pd.DomainNum.Cardinality
  let nc := spr.Constraints.length
  let na := spr.Assertions.length
  writeSeq
    (writeSeq
      (writeSeq (List.replicate s 0) 0
        (fun i => solution.getD (w (spr.Constraints.getD i (0, 0, 0))) 0) nc)
      nc (fun i => solution.getD (w (spr.Assertions.getD i (0, 0, 0))) 0) na)
    (nc + na) (fun _ => solution.getD 0 0) (s - (nc + na))

/-- ComputeLRO from the source: allocates three zero buffers of the domain
cardinality, copies the solution values at the constraints' L/R/O variable
ids, then the assertions', then pads the rest with solution[0]. -/
def ComputeLRO [Field F] (spr : SparseR1CS) (pd : PublicRaw F) (solution : List F) :
    List F × List F × List F :=
  (lroFill spr pd solution (fun t => t.1), lroFill spr pd solution (fun t => t.2.1),
    lroFill spr pd solution (fun t => t.2.2))

/-- Following the words of claim C7: the expected entry i of a ComputeLRO
wire buffer — the solution value at the i-th constraint's wire id, then at
the (i - nc)-th assertion's wire id, then the designated dummy slot
solution[0]. -/
def lroExpected [Field F] (spr : SparseR1CS) (solution : List F)
    (w : Nat × Nat × Nat → Nat) (i : Nat) : F :=
  if i < spr.Constraints.length then
    solution.getD (w (spr.Constraints.getD i (0, 0, 0))) 0
  else if i < spr.Constraints.length + spr.Assertions.length then
    solution.getD (w (spr.Assertions.getD (i - spr.Constraints.length) (0, 0, 0))) 0
  else solution.getD 0 0

/-- The numerator factor of ComputeZ at row i, as the source computes it:
the loop keeps u[0] = Generator^i, u[1] = Shifter[0] * Generator^i and
u[2] = Shifter[1]^2 * Generator^i (u[2] starts as the square of Shifter[1]
per the source line u[2].Square(&publicData.Shifter[1])). -/
def computeZf [Field F] (pd : PublicRaw F) (l r o : List F) (gamma : F) (i : Nat) : F :=
  (l.getD i 0 + 1 * pd.DomainNum.Generator ^ i + gamma) *
    (r.getD i 0 + pd.Shifter 0 * pd.DomainNum.Generator ^ i + gamma) *
    (o.getD i 0 + pd.Shifter 1 * pd.Shifter 1 * pd.DomainNum.Generator ^ i + gamma)

/-- The denominator factor of ComputeZ at row i. -/
def computeZg [Field F] (pd : PublicRaw F) (l r o : List F) (gamma : F) (i : Nat) : F :=
  (l.getD i 0 + pd.LS1.getD i 0 + gamma) *
    (r.getD i 0 + pd.LS2.getD i 0 + gamma) *
    (o.getD i 0 + pd.LS3.getD i 0 + gamma)

/-- The accumulator values of ComputeZ: z 0 = 1 and z (i+1) = z i * f i / g i, mirroring
z[i+1].Mul(&z[i], &f[0]).Div(&z[i+1], &g[0]) in the source. -/
def computeZval [Field F] (pd : PublicRaw F) (l r o : List F) (gamma : F) : Nat → F
  | 0 => 1
  | i + 1 => computeZval pd l r o gamma i * computeZf pd l r o gamma i /
      computeZg pd l r o gamma i

/-- ComputeZ from the source: the Lagrange-form accumulator sequence of
length DomainNum.Cardinality. -/
def ComputeZ [Field F] (l r o : List F) (pd : PublicRaw F) (gamma : F) : List F :=
  List.ofFn (fun k : Fin pd.DomainNum.Cardinality => computeZval pd l r o gamma k)

/-- The loop of evalConstraints: iteration i overwrites evalL[i] with
ql*l + qr*r + qm*l*r + qo*o + k, reading the current (original) value of
evalL[i] and leaving evalR, evalO untouched. -/
def evalConstraintsLoop [Field F] (ql qr qm qo qk r o : List F) (st : List F) :
    Nat → List F
  | 0 => st
  | i + 1 =>
    let cur := evalConstraintsLoop ql qr qm qo qk r o st i
    cur.set i (ql.getD i 0 * cur.getD i 0 + qr.getD i 0 * r.getD i 0 +
      qm.getD i 0 * cur.getD i 0 * r.getD i 0 + qo.getD i 0 * o.getD i 0 +
      qk.getD i 0)

/-- evalConstraints from the source: evaluates the five selectors through
evaluateCosets, then runs the pointwise loop over all 4N indices, writing
into (and returning) the evalL buffer. -/
def evalConstraints [Field F] (pd : PublicRaw F) (evalL evalR evalO : List F) : List F :=
  evalConstraintsLoop
    (evaluateCosets pd.DomainNum pd.Ql) (evaluateCosets pd.DomainNum pd.Qr)
    (evaluateCosets pd.DomainNum pd.Qm) (evaluateCosets pd.DomainNum pd.Qo)
    (evaluateCosets pd.DomainNum pd.Qk) evalR evalO evalL
    (4 * pd.DomainNum.Cardinality)

/-- The buffer-level view of a call to evalConstraints: the triple of buffers
after the call (only the first is ever written by the source) together with
the returned slice, which is the first buffer itself. -/
def evalConstraintsBufs [Field F] (pd : PublicRaw F) (evalL evalR evalO : List F) :
    (List F × List F × List F) × List F :=
  ((evalConstraints pd evalL evalR evalO, evalR, evalO),
    evalConstraints pd evalL evalR evalO)

/-- Pointwise update of a buffer modelled as a function on indices. -/
def updFn (f : Nat → F) (m : Nat) (v : F) : Nat → F :=
  fun k => if k = m then v else f k

/-- The first loop of evalIDCosets: id[4i] = id[4(i-1)] * Generator with
id[0..3] = 1, blocks of four sharing a value. -/
def idPow [Field F] (g : F) : Nat → F
  | 0 => 1
  | i + 1 => idPow g i * g

/-- State of the second loop of evalIDCosets: the id, uid, uuid buffers. -/
structure IDState (F : Type) where
  id : Nat → F
  uid : Nat → F
  uuid : Nat → F

/-- Iteration i of the second loop of evalIDCosets, in source order: the four
in-place coset multiplications of id at 4i..4i+3, the four uid writes at
4i..4i+3 reading the updated id, then the four uuid writes at i, i+c, i+2c,
i+3c reading the current id buffer (whose entries beyond 4i+3 have not yet
received their coset factor). -/
def evalIDStep [Field F] (c : Nat) (sh0 sh1 : F) (u : Nat → F) (st : IDState F)
    (i : Nat) : IDState F :=
  let id1 := updFn st.id (4 * i) (st.id (4 * i) * u 0)
  let id2 := updFn id1 (4 * i + 1) (id1 (4 * i + 1) * u 1)
  let id3 := updFn id2 (4 * i + 2) (id2 (4 * i + 2) * u 2)
  let id4 := updFn id3 (4 * i + 3) (id3 (4 * i + 3) * u 3)
  let uid1 := updFn st.uid (4 * i) (id4 (4 * i) * sh0)
  let uid2 := updFn uid1 (4 * i + 1) (id4 (4 * i + 1) * sh0)
  let uid3 := updFn uid2 (4 * i + 2) (id4 (4 * i + 2) * sh0)
  let uid4 := updFn uid3 (4 * i + 3) (id4 (4 * i + 3) * sh0)
  let uu1 := updFn st.uuid i (id4 i * sh1)
  let uu2 := updFn uu1 (i + c) (id4 (i + c) * sh1)
  let uu3 := updFn uu2 (i + 2 * c) (id4 (i + 2 * c) * sh1)
  let uu4 := updFn uu3 (i + 3 * c) (id4 (i + 3 * c) * sh1)
  ⟨id4, uid4, uu4⟩

/-- The second loop of evalIDCosets after k iterations, starting from the
output of the first loop (id[m] = Generator^(m/4)) and zeroed uid, uuid. -/
def evalIDLoop [Field F] (c : Nat) (g sh0 sh1 : F) (u : Nat → F) : Nat → IDState F
  | 0 => ⟨fun m => idPow g (m / 4), fun _ => 0, fun _ => 0⟩
  | k + 1 => evalIDStep c sh0 sh1 u (evalIDLoop c g sh0 sh1 u k) k

/-- The four odd coset shifts u, u^3, u^5, u^7 of evalIDCosets, built by
repeated multiplication with uu = FinerGenerator^2 as in the source. -/
def cosetShifts [Field F] (d : Domain F) : Nat → F :=
  let uu := d.FinerGenerator * d.FinerGenerator
  let u0 := d.FinerGenerator
  let u1 := u0 * uu
  let u2 := u1 * uu
  let u3 := u2 * uu
  fun j => if j = 0 then u0 else if j = 1 then u1 else if j = 2 then u2 else u3

/-- evalIDCosets from the source: the second loop runs over all Cardinality
iterations with the four odd coset shifts. -/
def evalIDCosets [Field F] (pd : PublicRaw F) : IDState F :=
  evalIDLoop pd.DomainNum.Cardinality pd.DomainNum.Generator (pd.Shifter 0)
    (pd.Shifter 1) (cosetShifts pd.DomainNum) pd.DomainNum.Cardinality

/-- evalConstraintOrdering from the source: evaluates z, zu, CS1, CS2, CS3
through evaluateCosets and the identity vectors through evalIDCosets, then
computes pointwise g - f with f = (l+id+gamma)(r+uid+gamma)(o+uuid+gamma)*l*z
and g = (l+s1+gamma)(r+s2+gamma)(o+s3+gamma)*l*zu. -/
def evalConstraintOrdering [Field F] (pd : PublicRaw F) (z zu evalL evalR evalO : List F)
    (gamma : F) : List F :=
  let evalZ := evaluateCosets pd.DomainNum z
  let evalZu := evaluateCosets pd.DomainNum zu
  let evalS1 := evaluateCosets pd.DomainNum pd.CS1
  let evalS2 := evaluateCosets pd.DomainNum pd.CS2
  let evalS3 := evaluateCosets pd.DomainNum pd.CS3
  let ids := evalIDCosets pd
  List.ofFn (fun mf : Fin (4 * pd.DomainNum.Cardinality) =>
    let m := (mf : Nat)
    let f := (evalL.getD m 0 + ids.id m + gamma) * (evalR.getD m 0 + ids.uid m + gamma) *
      (evalO.getD m 0 + ids.uuid m + gamma) * evalL.getD m 0 * evalZ.getD m 0
    let g := (evalL.getD m 0 + evalS1.getD m 0 + gamma) *
      (evalR.getD m 0 + evalS2.getD m 0 + gamma) *
      (evalO.getD m 0 + evalS3.getD m 0 + gamma) * evalL.getD m 0 * evalZu.getD m 0
    g - f)

/-- The shifting loop of shiftZ: iteration i sets res[i] = res[i+1] on the
current buffer (each read happens before any write to that cell). -/
def shiftZLoop [Field F] (st : List F) : Nat → List F
  | 0 => st
  | i + 1 => let cur := shiftZLoop st i; cur.set i (cur.getD (i + 1) 0)

/-- shiftZ from the source: copies z, saves element 0, shifts every element
down by one and writes the saved element at the last position. -/
def shiftZ [Field F] (z : List F) : List F :=
  let buf := z.getD 0 0
  (shiftZLoop z (z.length - 1)).set (z.length - 1) buf

/-- First stage of computeH: h[i] = constraintsInd[i] + alpha * constraintOrdering[i]
over all 4N indices. -/
def computeHcombined [Field F] (pd : PublicRaw F) (constraintsInd constraintOrdering : List F)
    (alpha : F) : List F :=
  List.ofFn (fun m : Fin (4 * pd.DomainNum.Cardinality) =>
    constraintsInd.getD m 0 + alpha * constraintOrdering.getD m 0)

/-- The four per-coset multipliers of computeH, exactly as the source chains
them: u[0] = (FinerGenerator^m)⁻¹ and u[j+1] = ((u[j] * FinerGenerator^2)^m)⁻¹,
with m the domain cardinality. -/
def computeHu [Field F] (pd : PublicRaw F) : Fin 4 → F :=
  let m := pd.DomainNum.Cardinality
  let uu := pd.DomainNum.FinerGenerator * pd.DomainNum.FinerGenerator
  let u0 := (pd.DomainNum.FinerGenerator ^ m)⁻¹
  let u1 := ((u0 * uu) ^ m)⁻¹
  let u2 := ((u1 * uu) ^ m)⁻¹
  let u3 := ((u2 * uu) ^ m)⁻¹
  ![u0, u1, u2, u3]

/-- Second stage of computeH: h[4i+j] is multiplied by u[j]. -/
def computeHdivided [Field F] (pd : PublicRaw F) (constraintsInd constraintOrdering : List F)
    (alpha : F) : List F :=
  let h := computeHcombined pd constraintsInd constraintOrdering alpha
  List.ofFn (fun m : Fin (4 * pd.DomainNum.Cardinality) =>
    h.getD m 0 * computeHu pd ⟨(m : Nat) % 4, Nat.mod_lt _ (by omega)⟩)

/-- computeH from the source: combine, multiply per coset, then inverse
transform through DomainH at coset index 1 followed by bit-reversal. -/
def computeH [Field F] (pd : PublicRaw F) (constraintsInd constraintOrdering : List F)
    (alpha : F) : List F :=
  BitReverse (fftInverseModel pd.DomainH
    (computeHdivided pd constraintsInd constraintOrdering alpha) 1)

/-- The Proof value that the body of Prove populates before its final return
statement: the dataflow of the source, including its buffer reuse (the evalL
buffer passed to evalConstraintOrdering has been overwritten by
evalConstraints, so constraintsInd is passed there), with the solver result
taken from the pair (solution, ok) whose second component the source
discards. -/
def proveAssembled [Field F] {B OP : Type} (consts : Consts F) (spr : SparseR1CS)
    (pd : PublicRaw F)
    (batchOpen : F → F → List F → List F → List F → List F → List F → B)
    (openProof : F → List F → OP) (solveRes : List F × Bool) : Proof F B OP :=
  let solution := solveRes.1
  let lro := ComputeLRO spr pd solution
  let evalL := evaluateCosets pd.DomainNum pd.Ql
  let evalR := evaluateCosets pd.DomainNum pd.Qr
  let evalO := evaluateCosets pd.DomainNum pd.Qm
  let constraintsInd := evalConstraints pd evalL evalR evalO
  let z := ComputeZ lro.1 lro.2.1 lro.2.2 pd consts.gamma
  let zu := shiftZ z
  let zc := BitReverse (fftInverseModel pd.DomainNum z 0)
  let zuc := BitReverse (fftInverseModel pd.DomainNum zu 0)
  let constraintsOrdering := evalConstraintOrdering pd zc zuc constraintsInd evalR evalO
    consts.gamma
  let h := computeH pd constraintsInd constraintsOrdering consts.alpha
  let lc := BitReverse (fftInverseModel pd.DomainNum lro.1 0)
  let rc := BitReverse (fftInverseModel pd.DomainNum lro.2.1 0)
  let oc := BitReverse (fftInverseModel pd.DomainNum lro.2.2 0)
  let zzeta := consts.zeta * pd.DomainNum.Generator
  { LROHZ := ![evalPoly lc consts.zeta, evalPoly rc consts.zeta, evalPoly oc consts.zeta,
      evalPoly h consts.zeta, evalPoly zc consts.zeta]
    ZShift := evalPoly zc zzeta
    BatchOpenings := batchOpen consts.zeta consts.vBundle lc rc oc h zc
    OpeningZShift := openProof zzeta zc }

set_option linter.unusedVariables false in
/-- Prove from the source: runs the whole pipeline (building the populated
proof value) and then returns a freshly constructed zero Proof literal, as
the final line of the source does. -/
def Prove [Field F] {B OP : Type} (consts : Consts F) (spr : SparseR1CS)
    (pd : PublicRaw F)
    (batchOpen : F → F → List F → List F → List F → List F → List F → B)
    (openProof : F → List F → OP) (b0 : B) (o0 : OP) (solveRes : List F × Bool) :
    Proof F B OP :=
  let proof := proveAssembled consts spr pd batchOpen openProof solveRes
  emptyProof b0 o0

/-- The extended-coset evaluation point the spec associates with index 4i+j:
domain-generator^i times finer-generator^(2j+1). -/
def extendedPoint [Field F] (pd : PublicRaw F) (m : Nat) : F :=
  pd.DomainNum.FinerGenerator ^ (2 * (m % 4) + 1) * pd.DomainNum.Generator ^ (m / 4)

/-- Conversion of a Lagrange-form sequence on DomainNum to canonical
coefficient form, as Prove performs it (FFTInverse at coset 0 followed by
bit-reversal). -/
def interpolate [Field F] (d : Domain F) (v : List F) : List F :=
  BitReverse (fftInverseModel d v 0)

/-- The gate-identity vector that Prove hands to computeH, with the
arguments Prove actually passes: the coset evaluations of Ql, Qr, Qm as the
evalL, evalR, evalO buffers. -/
def proveConstraintsInd [Field F] (pd : PublicRaw F) : List F :=
  evalConstraints pd (evaluateCosets pd.DomainNum pd.Ql)
    (evaluateCosets pd.DomainNum pd.Qr) (evaluateCosets pd.DomainNum pd.Qm)

/-- Following the words of claim C3: the value Ql*L + Qr*R + Qm*L*R + Qo*O + Qk
at extended index m, where L, R, O are the evaluations at the extended point
of the wire polynomials l, r, o returned by ComputeLRO (interpolated to
canonical form) and the selectors are evaluated at the same point. -/
def gateIdentitySpecAt [Field F] (pd : PublicRaw F) (l r o : List F) (m : Nat) : F :=
  let pt := extendedPoint pd m
  let lv := evalPoly (interpolate pd.DomainNum l) pt
  let rv := evalPoly (interpolate pd.DomainNum r) pt
  let ov := evalPoly (interpolate pd.DomainNum o) pt
  evalPoly pd.Ql pt * lv + evalPoly pd.Qr pt * rv + evalPoly pd.Qm pt * lv * rv +
    evalPoly pd.Qo pt * ov + evalPoly pd.Qk pt

/-- Following the words of claim C4: Zu*(l+id+gamma)(r+shifter0*id+gamma)
(o+shifter0^2*id+gamma)*L - Z*(l+s1+gamma)(r+s2+gamma)(o+s3+gamma)*L at
extended index m, with the identity permutation correctly evaluated at the
extended point, and Z, Zu, s1, s2, s3 the coset evaluations the function
computes internally. -/
def orderingSpecAt [Field F] (pd : PublicRaw F) (z zu evalL evalR evalO : List F)
    (gamma : F) (m : Nat) : F :=
  let idv := extendedPoint pd m
  (evaluateCosets pd.DomainNum zu).getD m 0 * ((evalL.getD m 0 + idv + gamma) *
      (evalR.getD m 0 + pd.Shifter 0 * idv + gamma) *
      (evalO.getD m 0 + pd.Shifter 0 ^ 2 * idv + gamma)) * evalL.getD m 0 -
    (evaluateCosets pd.DomainNum z).getD m 0 * ((evalL.getD m 0 + (evaluateCosets pd.DomainNum pd.CS1).getD m 0 + gamma) *
      (evalR.getD m 0 + (evaluateCosets pd.DomainNum pd.CS2).getD m 0 + gamma) *
      (evalO.getD m 0 + (evaluateCosets pd.DomainNum pd.CS3).getD m 0 + gamma)) * evalL.getD m 0

/-- The claim C4 formula with only the two accumulators exchanged (Zu on the
permutation factors, Z on the identity factors), still assuming the identity
vectors are correctly evaluated at every extended point. -/
def orderingSwapSpecAt [Field F] (pd : PublicRaw F) (z zu evalL evalR evalO : List F)
    (gamma : F) (m : Nat) : F :=
  let idv := extendedPoint pd m
  (evaluateCosets pd.DomainNum zu).getD m 0 * ((evalL.getD m 0 + (evaluateCosets pd.DomainNum pd.CS1).getD m 0 + gamma) *
      (evalR.getD m 0 + (evaluateCosets pd.DomainNum pd.CS2).getD m 0 + gamma) *
      (evalO.getD m 0 + (evaluateCosets pd.DomainNum pd.CS3).getD m 0 + gamma)) * evalL.getD m 0 -
    (evaluateCosets pd.DomainNum z).getD m 0 * ((evalL.getD m 0 + idv + gamma) *
      (evalR.getD m 0 + pd.Shifter 0 * idv + gamma) *
      (evalO.getD m 0 + pd.Shifter 1 * idv + gamma)) * evalL.getD m 0

/-- Closed form of what evalConstraintOrdering actually returns at index
4i+j: Zu multiplies the s1/s2/s3 factors, Z multiplies the identity factors,
id and uid are the correct point values, and the o-wire identity vector uuid
misses the finer-generator coset factor exactly when i exceeds (4i+j) mod
Cardinality (those entries were read before the in-place coset multiplication
reached them). -/
def orderingCodeAt [Field F] (pd : PublicRaw F) (z zu evalL evalR evalO : List F)
    (gamma : F) (i j : Nat) : F :=
  let m := 4 * i + j
  let pt := pd.DomainNum.FinerGenerator ^ (2 * j + 1) * pd.DomainNum.Generator ^ i
  let uuidv := pd.Shifter 1 * pd.DomainNum.Generator ^ i *
    (if i ≤ m % pd.DomainNum.Cardinality then pd.DomainNum.FinerGenerator ^ (2 * j + 1) else 1)
  (evaluateCosets pd.DomainNum zu).getD m 0 * ((evalL.getD m 0 + (evaluateCosets pd.DomainNum pd.CS1).getD m 0 + gamma) *
      (evalR.getD m 0 + (evaluateCosets pd.DomainNum pd.CS2).getD m 0 + gamma) *
      (evalO.getD m 0 + (evaluateCosets pd.DomainNum pd.CS3).getD m 0 + gamma)) * evalL.getD m 0 -
    (evaluateCosets pd.DomainNum z).getD m 0 * ((evalL.getD m 0 + pt + gamma) *
      (evalR.getD m 0 + pd.Shifter 0 * pt + gamma) *
      (evalO.getD m 0 + uuidv + gamma)) * evalL.getD m 0

/-- Following the words of claim C5: the inverse of the vanishing polynomial
X^N - 1 evaluated at the extended point of index m. -/
def vanishingInvSpec [Field F] (pd : PublicRaw F) (m : Nat) : F :=
  ((extendedPoint pd m) ^ pd.DomainNum.Cardinality - 1)⁻¹

/-- Concrete scalar field for executable checks: the field with 17 elements
contains a primitive 16th root of unity (3), so it supports a cardinality-2
domain (generator 16) with finer generator 3, and the extended cardinality-8
domain (generator 9 = 3^2) with the same finer generator.  It is wrapped in
a new type so that a kernel-reducible inverse (a^15, by Fermat) can be
installed, letting concrete checks evaluate by decide. -/
def F17 := ZMod 17

instance instCommRingF17 : CommRing F17 := inferInstanceAs (CommRing (ZMod 17))

instance instDecEqF17 : DecidableEq F17 := inferInstanceAs (DecidableEq (ZMod 17))

instance instFintypeF17 : Fintype F17 := inferInstanceAs (Fintype (ZMod 17))

instance instFieldF17 : Field F17 :=
  { (inferInstanceAs (CommRing F17)) with
    inv := fun a => a ^ 15
    exists_pair_ne := ⟨0, 1, by decide⟩
    mul_inv_cancel := by decide
    inv_zero := by decide
    nnqsmul := _
    nnqsmul_def := fun _ _ => rfl
    qsmul := _
    qsmul_def := fun _ _ => rfl }

/-- Cardinality-2 domain over F17: generator 16 (order 2), finer generator 3
(primitive 16th root of unity). -/
def d17 : Domain F17 := ⟨2, 16, 3⟩

/-- The extended cardinality-8 domain over F17: generator 9 (order 8), finer
generator 3; the odd cosets of d17 are the coset 3 * <9> of this domain. -/
def dH17 : Domain F17 := ⟨8, 9, 3⟩

/-- Base concrete public data: zero selector and permutation polynomials,
shifters 2 and 4 = 2^2 (the spec fixes Shifter[1] as the square of
Shifter[0]: the wire-copy multipliers are 1, shifter0, shifter0^2). -/
def pdBase17 : PublicRaw F17 :=
  { DomainNum := d17
    DomainH := dH17
    Ql := [0, 0], Qr := [0, 0], Qm := [0, 0], Qo := [0, 0], Qk := [0, 0]
    LS1 := [0, 0], LS2 := [0, 0], LS3 := [0, 0]
    CS1 := [0, 0], CS2 := [0, 0], CS3 := [0, 0]
    Shifter := ![2, 4] }

/-- Concrete public data for the gate-identity check: Qm is the constant
polynomial 1, all other selectors vanish. -/
def pdQm17 : PublicRaw F17 := { pdBase17 with Qm := [1, 0] }

/-- A one-constraint circuit: the single constraint reads variables 0, 1, 1. -/
def spr17 : SparseR1CS := ⟨[(0, 1, 1)], []⟩

/-- A solved assignment for spr17: the dummy slot holds 2, variable 1 holds 3. -/
def sol17 : List F17 := [2, 3]

/-- Concrete protocol constants: zeta 2, vBundle 1, gamma 1, alpha 1. -/
def c17 : Consts F17 := ⟨2, 1, 1, 1⟩

/-- Trivial batch-opening collaborator used for concrete runs of Prove. -/
def mkBatch : F17 → F17 → List F17 → List F17 → List F17 → List F17 → List F17 → Unit :=
  fun _ _ _ _ _ _ _ => ()

/-- Trivial opening collaborator used for concrete runs of Prove. -/
def mkOpen : F17 → List F17 → Unit := fun _ _ => ()

/-! Helper lemmas about the buffer primitives. -/

theorem getD_ofFn_eq [Field F] {n : Nat} (f : Fin n → F) (m : Nat) (h : m < n) :
    (List.ofFn f).getD m 0 = f ⟨m, h⟩ := by
  rw [List.getD_eq_getElem _ 0 (by simpa using h), List.getElem_ofFn]

theorem getD_set [Field F] (l : List F) (i m : Nat) (a : F) (hm : m < l.length) :
    (l.set i a).getD m 0 = if i = m then a else l.getD m 0 := by
  rw [List.getD_eq_getElem _ 0 (by simpa using hm), List.getElem_set,
    List.getD_eq_getElem _ 0 hm]

theorem writeSeq_length [Field F] (xs : List F) (off : Nat) (v : Nat → F) (len : Nat) :
    (writeSeq xs off v len).length = xs.length := by
  induction len with
  | zero => rfl
  | succ n ih => simp only [writeSeq, List.length_set, ih]

theorem writeSeq_getD [Field F] (xs : List F) (off : Nat) (v : Nat → F) (len m : Nat)
    (hm : m < xs.length) :
    (writeSeq xs off v len).getD m 0 =
      if off ≤ m ∧ m < off + len then v (m - off) else xs.getD m 0 := by
  induction len with
  | zero => simp only [writeSeq]; rw [if_neg (by omega)]
  | succ n ih =>
    rw [writeSeq, getD_set _ _ _ _ (by rw [writeSeq_length]; exact hm), ih]
    by_cases h : off + n = m
    · rw [if_pos h, if_pos (by omega)]
      congr 1
      omega
    · rw [if_neg h]
      by_cases h2 : off ≤ m ∧ m < off + n
      · rw [if_pos h2, if_pos (by omega)]
      · rw [if_neg h2, if_neg (by omega)]

theorem lroFill_getD [Field F] (spr : SparseR1CS) (pd : PublicRaw F) (solution : List F)
    (w : Nat × Nat × Nat → Nat)
    (hfit : spr.Constraints.length + spr.Assertions.length ≤ pd.DomainNum.Cardinality)
    (i : Nat) (hi : i < pd.DomainNum.Cardinality) :
    (lroFill spr pd solution w).getD i 0 = lroExpected spr solution w i := by
  have hrep : (List.replicate pd.DomainNum.Cardinality (0 : F)).length =
      pd.DomainNum.Cardinality := List.length_replicate _ _
  have h1 : i < (writeSeq (List.replicate pd.DomainNum.Cardinality (0 : F)) 0
      (fun k => solution.getD (w (spr.Constraints.getD k (0, 0, 0))) 0)
      spr.Constraints.length).length := by
    rw [writeSeq_length, hrep]; exact hi
  have h2 : i < (writeSeq (writeSeq (List.replicate pd.DomainNum.Cardinality (0 : F)) 0
      (fun k => solution.getD (w (spr.Constraints.getD k (0, 0, 0))) 0)
      spr.Constraints.length) spr.Constraints.length
      (fun k => solution.getD (w (spr.Assertions.getD k (0, 0, 0))) 0)
      spr.Assertions.length).length := by
    rw [writeSeq_length, writeSeq_length, hrep]; exact hi
  rw [lroFill, writeSeq_getD _ _ _ _ _ h2, writeSeq_getD _ _ _ _ _ h1,
    writeSeq_getD _ _ _ _ _ (by rw [hrep]; exact hi), lroExpected]
  by_cases hc : i < spr.Constraints.length
  · rw [if_neg (by omega), if_neg (by omega), if_pos (by omega), if_pos hc]
    simp
  · by_cases ha : i < spr.Constraints.length + spr.Assertions.length
    · rw [if_neg (by omega), if_pos (by omega), if_neg hc, if_pos ha]
    · rw [if_pos (by omega), if_neg hc, if_neg ha]

/-- Claim C7: for a circuit fitting in the domain, every entry of the three
ComputeLRO buffers is the solution value at the constraint's wire id for
constraint rows, at the assertion's wire id for assertion rows, and the
designated dummy slot solution[0] for the padding rows. -/
theorem ComputeLRO_entries [Field F] (spr : SparseR1CS) (pd : PublicRaw F)
    (solution : List F)
    (hfit : spr.Constraints.length + spr.Assertions.length ≤ pd.DomainNum.Cardinality)
    (i : Nat) (hi : i < pd.DomainNum.Cardinality) :
    (ComputeLRO spr pd solution).1.getD i 0 =
        lroExpected spr solution (fun t => t.1) i ∧
      (ComputeLRO spr pd solution).2.1.getD i 0 =
        lroExpected spr solution (fun t => t.2.1) i ∧
      (ComputeLRO spr pd solution).2.2.getD i 0 =
        lroExpected spr solution (fun t => t.2.2) i := by
  simp only [ComputeLRO]
  exact ⟨lroFill_getD spr pd solution _ hfit i hi,
    lroFill_getD spr pd solution _ hfit i hi,
    lroFill_getD spr pd solution _ hfit i hi⟩

/-- Witness for claim C7 at the concrete one-constraint circuit, row 0. -/
theorem ComputeLRO_entries_witness :
    (spr17.Constraints.length + spr17.Assertions.length ≤
        pdBase17.DomainNum.Cardinality) ∧
      ((ComputeLRO spr17 pdBase17 sol17).1.getD 0 0 =
          lroExpected spr17 sol17 (fun t => t.1) 0 ∧
        (ComputeLRO spr17 pdBase17 sol17).2.1.getD 0 0 =
          lroExpected spr17 sol17 (fun t => t.2.1) 0 ∧
        (ComputeLRO spr17 pdBase17 sol17).2.2.getD 0 0 =
          lroExpected spr17 sol17 (fun t => t.2.2) 0) :=
  ⟨by decide, ComputeLRO_entries spr17 pdBase17 sol17 (by decide) 0 (by decide)⟩

theorem getD_default [Field F] (l : List F) (m : Nat) (h : l.length ≤ m) :
    l.getD m 0 = 0 := by
  rw [List.getD_eq_default]
  exact h

theorem getD_set_ne [Field F] (l : List F) (i m : Nat) (a : F) (h : i ≠ m) :
    (l.set i a).getD m 0 = l.getD m 0 := by
  by_cases hm : m < l.length
  · rw [getD_set _ _ _ _ hm, if_neg h]
  · rw [getD_default _ _ (by simpa [List.length_set] using Nat.le_of_not_lt hm),
      getD_default _ _ (Nat.le_of_not_lt hm)]

theorem shiftZLoop_length [Field F] (st : List F) (k : Nat) :
    (shiftZLoop st k).length = st.length := by
  induction k with
  | zero => rfl
  | succ n ih => simp only [shiftZLoop, List.length_set, ih]

theorem shiftZLoop_getD [Field F] (st : List F) (k m : Nat) (hk : k < st.length)
    (hm : m < st.length) :
    (shiftZLoop st k).getD m 0 = if m < k then st.getD (m + 1) 0 else st.getD m 0 := by
  induction k generalizing m with
  | zero => rw [if_neg (by omega)]; rfl
  | succ n ih =>
    have hn : n < st.length := by omega
    rw [shiftZLoop, getD_set _ _ _ _ (by rw [shiftZLoop_length]; exact hm)]
    by_cases h : n = m
    · subst h
      rw [if_pos rfl, if_pos (by omega), ih (n + 1) hn (by omega), if_neg (by omega)]
    · rw [if_neg h, ih m hn hm]
      by_cases h2 : m < n
      · rw [if_pos h2, if_pos (by omega)]
      · rw [if_neg h2, if_neg (by omega)]

/-- Claim C8: shiftZ returns the left cyclic rotation of its non-empty input
sequence, so that in Lagrange form the shifted accumulator at row i is the
accumulator at row i+1. -/
theorem shiftZ_rotation [Field F] (z : List F) (hz : 0 < z.length) :
    (shiftZ z).length = z.length ∧
      (∀ i, i < z.length - 1 → (shiftZ z).getD i 0 = z.getD (i + 1) 0) ∧
      (shiftZ z).getD (z.length - 1) 0 = z.getD 0 0 := by
  refine ⟨by simp only [shiftZ, List.length_set, shiftZLoop_length], ?_, ?_⟩
  · intro i hi
    rw [shiftZ, getD_set_ne _ _ _ _ (by omega),
      shiftZLoop_getD _ _ _ (by omega) (by omega), if_pos hi]
  · rw [shiftZ, getD_set _ _ _ _ (by rw [shiftZLoop_length]; omega), if_pos rfl]

/-- Witness for claim C8 at a concrete length-2 sequence. -/
theorem shiftZ_rotation_witness :
    (0 < ([3, 5] : List F17).length) ∧
      ((shiftZ ([3, 5] : List F17)).length = ([3, 5] : List F17).length ∧
        (∀ i, i < ([3, 5] : List F17).length - 1 →
          (shiftZ ([3, 5] : List F17)).getD i 0 = ([3, 5] : List F17).getD (i + 1) 0) ∧
        (shiftZ ([3, 5] : List F17)).getD (([3, 5] : List F17).length - 1) 0 =
          ([3, 5] : List F17).getD 0 0) :=
  ⟨by decide, shiftZ_rotation ([3, 5] : List F17) (by decide)⟩

theorem evalConstraintsLoop_length [Field F] (ql qr qm qo qk r o st : List F) (k : Nat) :
    (evalConstraintsLoop ql qr qm qo qk r o st k).length = st.length := by
  induction k with
  | zero => rfl
  | succ n ih => simp only [evalConstraintsLoop, List.length_set, ih]

theorem evalConstraintsLoop_getD_ge [Field F] (ql qr qm qo qk r o st : List F)
    (k m : Nat) (hkm : k ≤ m) :
    (evalConstraintsLoop ql qr qm qo qk r o st k).getD m 0 = st.getD m 0 := by
  induction k with
  | zero => rfl
  | succ n ih =>
    rw [evalConstraintsLoop, getD_set_ne _ _ _ _ (by omega)]
    exact ih (by omega)

theorem evalConstraintsLoop_getD_lt [Field F] (ql qr qm qo qk r o st : List F)
    (k m : Nat) (hm : m < k) (hk : k ≤ st.length) :
    (evalConstraintsLoop ql qr qm qo qk r o st k).getD m 0 =
      ql.getD m 0 * st.getD m 0 + qr.getD m 0 * r.getD m 0 +
        qm.getD m 0 * st.getD m 0 * r.getD m 0 + qo.getD m 0 * o.getD m 0 +
        qk.getD m 0 := by
  induction k with
  | zero => omega
  | succ n ih =>
    rw [evalConstraintsLoop]
    by_cases h : n = m
    · subst h
      rw [getD_set _ _ _ _ (by rw [evalConstraintsLoop_length]; omega), if_pos rfl,
        evalConstraintsLoop_getD_ge _ _ _ _ _ _ _ _ _ _ (le_refl n)]
    · rw [getD_set_ne _ _ _ _ h]
      exact ih (by omega) (by omega)

/-- Claim C10: evalConstraints writes the combined gate-identity values into
the evalL buffer it receives and returns that buffer, while the evalR and
evalO buffers are left unchanged; each written entry combines the selector
coset evaluations with the original contents of the three buffers. -/
theorem evalConstraints_frame [Field F] (pd : PublicRaw F) (evalL evalR evalO : List F)
    (hlen : evalL.length = 4 * pd.DomainNum.Cardinality) (i : Nat)
    (hi : i < 4 * pd.DomainNum.Cardinality) :
    evalConstraintsBufs pd evalL evalR evalO =
        ((evalConstraints pd evalL evalR evalO, evalR, evalO),
          evalConstraints pd evalL evalR evalO) ∧
      (evalConstraints pd evalL evalR evalO).getD i 0 =
        (evaluateCosets pd.DomainNum pd.Ql).getD i 0 * evalL.getD i 0 +
          (evaluateCosets pd.DomainNum pd.Qr).getD i 0 * evalR.getD i 0 +
          (evaluateCosets pd.DomainNum pd.Qm).getD i 0 * evalL.getD i 0 *
            evalR.getD i 0 +
          (evaluateCosets pd.DomainNum pd.Qo).getD i 0 * evalO.getD i 0 +
          (evaluateCosets pd.DomainNum pd.Qk).getD i 0 := by
  refine ⟨rfl, ?_⟩
  rw [evalConstraints]
  exact evalConstraintsLoop_getD_lt _ _ _ _ _ _ _ _ _ _ hi (by omega)

/-- Witness for claim C10 at the concrete public data with Qm = 1 and
all-ones evalL buffer, index 0. -/
theorem evalConstraints_frame_witness :
    ((List.replicate 8 (1 : F17)).length = 4 * pdQm17.DomainNum.Cardinality) ∧
      (evalConstraintsBufs pdQm17 (List.replicate 8 (1 : F17))
            (List.replicate 8 (2 : F17)) (List.replicate 8 (3 : F17)) =
          ((evalConstraints pdQm17 (List.replicate 8 (1 : F17))
              (List.replicate 8 (2 : F17)) (List.replicate 8 (3 : F17)),
            List.replicate 8 (2 : F17), List.replicate 8 (3 : F17)),
            evalConstraints pdQm17 (List.replicate 8 (1 : F17))
              (List.replicate 8 (2 : F17)) (List.replicate 8 (3 : F17))) ∧
        (evalConstraints pdQm17 (List.replicate 8 (1 : F17))
            (List.replicate 8 (2 : F17)) (List.replicate 8 (3 : F17))).getD 0 0 =
          (evaluateCosets pdQm17.DomainNum pdQm17.Ql).getD 0 0 *
              (List.replicate 8 (1 : F17)).getD 0 0 +
            (evaluateCosets pdQm17.DomainNum pdQm17.Qr).getD 0 0 *
              (List.replicate 8 (2 : F17)).getD 0 0 +
            (evaluateCosets pdQm17.DomainNum pdQm17.Qm).getD 0 0 *
              (List.replicate 8 (1 : F17)).getD 0 0 *
              (List.replicate 8 (2 : F17)).getD 0 0 +
            (evaluateCosets pdQm17.DomainNum pdQm17.Qo).getD 0 0 *
              (List.replicate 8 (3 : F17)).getD 0 0 +
            (evaluateCosets pdQm17.DomainNum pdQm17.Qk).getD 0 0) :=
  ⟨by decide, evalConstraints_frame pdQm17 (List.replicate 8 (1 : F17))
    (List.replicate 8 (2 : F17)) (List.replicate 8 (3 : F17)) (by decide) 0 (by decide)⟩

/-! Closed forms for the in-place identity-coset loop of evalIDCosets. -/

theorem idPow_eq_pow [Field F] (g : F) (i : Nat) : idPow g i = g ^ i := by
  induction i with
  | zero => simp [idPow]
  | succ n ih => rw [idPow, ih, pow_succ]

theorem cosetShifts_eq [Field F] (d : Domain F) (j : Nat) (hj : j < 4) :
    cosetShifts d j = d.FinerGenerator ^ (2 * j + 1) := by
  interval_cases j <;> (simp [cosetShifts]; try ring)

theorem evalIDStep_id [Field F] (c : Nat) (sh0 sh1 : F) (u : Nat → F) (st : IDState F)
    (i m : Nat) :
    (evalIDStep c sh0 sh1 u st i).id m =
      if 4 * i ≤ m ∧ m < 4 * i + 4 then st.id m * u (m % 4) else st.id m := by
  simp only [evalIDStep, updFn]
  by_cases h3 : m = 4 * i + 3
  · rw [if_pos h3, h3, if_neg (show ¬(4 * i + 3 = 4 * i + 2) by omega),
      if_neg (show ¬(4 * i + 3 = 4 * i + 1) by omega),
      if_neg (show ¬(4 * i + 3 = 4 * i) by omega),
      if_pos (show 4 * i ≤ 4 * i + 3 ∧ 4 * i + 3 < 4 * i + 4 by omega),
      show (4 * i + 3) % 4 = 3 by omega]
  · rw [if_neg h3]
    by_cases h2 : m = 4 * i + 2
    · rw [if_pos h2, h2, if_neg (show ¬(4 * i + 2 = 4 * i + 1) by omega),
        if_neg (show ¬(4 * i + 2 = 4 * i) by omega),
        if_pos (show 4 * i ≤ 4 * i + 2 ∧ 4 * i + 2 < 4 * i + 4 by omega),
        show (4 * i + 2) % 4 = 2 by omega]
    · rw [if_neg h2]
      by_cases h1 : m = 4 * i + 1
      · rw [if_pos h1, h1, if_neg (show ¬(4 * i + 1 = 4 * i) by omega),
          if_pos (show 4 * i ≤ 4 * i + 1 ∧ 4 * i + 1 < 4 * i + 4 by omega),
          show (4 * i + 1) % 4 = 1 by omega]
      · rw [if_neg h1]
        by_cases h0 : m = 4 * i
        · rw [if_pos h0, h0,
            if_pos (show 4 * i ≤ 4 * i ∧ 4 * i < 4 * i + 4 by omega),
            show (4 * i) % 4 = 0 by omega]
        · rw [if_neg h0, if_neg (show ¬(4 * i ≤ m ∧ m < 4 * i + 4) by omega)]

theorem evalIDStep_uid [Field F] (c : Nat) (sh0 sh1 : F) (u : Nat → F) (st : IDState F)
    (i m : Nat) :
    (evalIDStep c sh0 sh1 u st i).uid m =
      if 4 * i ≤ m ∧ m < 4 * i + 4 then (evalIDStep c sh0 sh1 u st i).id m * sh0
      else st.uid m := by
  simp only [evalIDStep, updFn]
  by_cases h3 : m = 4 * i + 3
  · rw [if_pos h3, h3, if_pos (show 4 * i ≤ 4 * i + 3 ∧ 4 * i + 3 < 4 * i + 4 by omega)]
    norm_num
  · rw [if_neg h3]
    by_cases h2 : m = 4 * i + 2
    · rw [if_pos h2, h2, if_pos (show 4 * i ≤ 4 * i + 2 ∧ 4 * i + 2 < 4 * i + 4 by omega),
        if_neg (show ¬(4 * i + 2 = 4 * i + 3) by omega)]
      norm_num
    · rw [if_neg h2]
      by_cases h1 : m = 4 * i + 1
      · rw [if_pos h1, h1, if_pos (show 4 * i ≤ 4 * i + 1 ∧ 4 * i + 1 < 4 * i + 4 by omega),
          if_neg (show ¬(4 * i + 1 = 4 * i + 3) by omega),
          if_neg (show ¬(4 * i + 1 = 4 * i + 2) by omega)]
        norm_num
      · rw [if_neg h1]
        by_cases h0 : m = 4 * i
        · rw [if_pos h0, h0, if_pos (show 4 * i ≤ 4 * i ∧ 4 * i < 4 * i + 4 by omega),
            if_neg (show ¬(4 * i = 4 * i + 3) by omega),
            if_neg (show ¬(4 * i = 4 * i + 2) by omega),
            if_neg (show ¬(4 * i = 4 * i + 1) by omega)]
          norm_num
        · rw [if_neg h0, if_neg (show ¬(4 * i ≤ m ∧ m < 4 * i + 4) by omega)]

theorem evalIDStep_uuid [Field F] (c : Nat) (sh0 sh1 : F) (u : Nat → F) (st : IDState F)
    (i m : Nat) :
    (evalIDStep c sh0 sh1 u st i).uuid m =
      if m = i ∨ m = i + c ∨ m = i + 2 * c ∨ m = i + 3 * c then
        (evalIDStep c sh0 sh1 u st i).id m * sh1
      else st.uuid m := by
  simp only [evalIDStep, updFn]
  by_cases e3 : m = i + 3 * c
  · rw [if_pos e3, e3, if_pos (show i + 3 * c = i ∨ i + 3 * c = i + c ∨
      i + 3 * c = i + 2 * c ∨ i + 3 * c = i + 3 * c from Or.inr (Or.inr (Or.inr rfl)))]
  · rw [if_neg e3]
    by_cases e2 : m = i + 2 * c
    · rw [if_pos e2, e2, if_pos (show i + 2 * c = i ∨ i + 2 * c = i + c ∨
        i + 2 * c = i + 2 * c ∨ i + 2 * c = i + 3 * c from Or.inr (Or.inr (Or.inl rfl)))]
    · rw [if_neg e2]
      by_cases e1 : m = i + c
      · rw [if_pos e1, e1, if_pos (show i + c = i ∨ i + c = i + c ∨
          i + c = i + 2 * c ∨ i + c = i + 3 * c from Or.inr (Or.inl rfl))]
      · rw [if_neg e1]
        by_cases e0 : m = i
        · rw [if_pos e0, e0, if_pos (show i = i ∨ i = i + c ∨
            i = i + 2 * c ∨ i = i + 3 * c from Or.inl rfl)]
        · rw [if_neg e0, if_neg (show ¬(m = i ∨ m = i + c ∨ m = i + 2 * c ∨
            m = i + 3 * c) by push_neg; exact ⟨e0, e1, e2, e3⟩)]


theorem mod_decompose (c n m : Nat) (hmod : m % c = n) (hlt : m < 4 * c) :
    m = n ∨ m = n + c ∨ m = n + 2 * c ∨ m = n + 3 * c := by
  rcases (show m < c ∨ (c ≤ m ∧ m < 2 * c) ∨ (2 * c ≤ m ∧ m < 3 * c) ∨ 3 * c ≤ m by omega)
    with h | h | h | h
  · left
    rw [Nat.mod_eq_of_lt h] at hmod
    omega
  · right; left
    rw [Nat.mod_eq_sub_mod h.1, Nat.mod_eq_of_lt (by omega)] at hmod
    omega
  · right; right; left
    rw [Nat.mod_eq_sub_mod (show c ≤ m by omega),
      Nat.mod_eq_sub_mod (show c ≤ m - c by omega),
      Nat.mod_eq_of_lt (show m - c - c < c by omega)] at hmod
    omega
  · right; right; right
    rw [Nat.mod_eq_sub_mod (show c ≤ m by omega),
      Nat.mod_eq_sub_mod (show c ≤ m - c by omega),
      Nat.mod_eq_sub_mod (show c ≤ m - c - c by omega),
      Nat.mod_eq_of_lt (show m - c - c - c < c by omega)] at hmod
    omega

theorem evalIDLoop_id [Field F] (c : Nat) (g sh0 sh1 : F) (u : Nat → F) (k m : Nat) :
    (evalIDLoop c g sh0 sh1 u k).id m =
      if m / 4 < k then g ^ (m / 4) * u (m % 4) else g ^ (m / 4) := by
  induction k with
  | zero =>
    rw [if_neg (show ¬(m / 4 < 0) by omega)]
    simp only [evalIDLoop]
    exact idPow_eq_pow g (m / 4)
  | succ n ih =>
    rw [evalIDLoop, evalIDStep_id, ih]
    by_cases hw : 4 * n ≤ m ∧ m < 4 * n + 4
    · rw [if_pos hw, if_neg (show ¬(m / 4 < n) by omega),
        if_pos (show m / 4 < n + 1 by omega)]
    · rw [if_neg hw]
      by_cases h2 : m / 4 < n
      · rw [if_pos h2, if_pos (show m / 4 < n + 1 by omega)]
      · rw [if_neg h2, if_neg (show ¬(m / 4 < n + 1) by omega)]

theorem evalIDLoop_uid [Field F] (c : Nat) (g sh0 sh1 : F) (u : Nat → F) (k m : Nat) :
    (evalIDLoop c g sh0 sh1 u k).uid m =
      if m / 4 < k then g ^ (m / 4) * u (m % 4) * sh0 else 0 := by
  induction k with
  | zero => rw [if_neg (show ¬(m / 4 < 0) by omega)]; rfl
  | succ n ih =>
    have hid : (evalIDStep c sh0 sh1 u (evalIDLoop c g sh0 sh1 u n) n).id m =
        if m / 4 < n + 1 then g ^ (m / 4) * u (m % 4) else g ^ (m / 4) := by
      have h := evalIDLoop_id c g sh0 sh1 u (n + 1) m
      rw [evalIDLoop] at h
      exact h
    rw [evalIDLoop, evalIDStep_uid, ih, hid]
    by_cases hw : 4 * n ≤ m ∧ m < 4 * n + 4
    · rw [if_pos hw, if_pos (show m / 4 < n + 1 by omega),
        if_pos (show m / 4 < n + 1 by omega)]
    · rw [if_neg hw]
      by_cases h2 : m / 4 < n
      · rw [if_pos h2, if_pos (show m / 4 < n + 1 by omega)]
      · rw [if_neg h2, if_neg (show ¬(m / 4 < n + 1) by omega)]

theorem evalIDLoop_uuid [Field F] (c : Nat) (g sh0 sh1 : F) (u : Nat → F) (k m : Nat)
    (hk : k ≤ c) :
    (evalIDLoop c g sh0 sh1 u k).uuid m =
      if m % c < k ∧ m < 4 * c then
        (if m / 4 ≤ m % c then g ^ (m / 4) * u (m % 4) else g ^ (m / 4)) * sh1
      else 0 := by
  induction k with
  | zero => rw [if_neg (show ¬(m % c < 0 ∧ m < 4 * c) by omega)]; rfl
  | succ n ih =>
    have hnc : n < c := by omega
    have hid : (evalIDStep c sh0 sh1 u (evalIDLoop c g sh0 sh1 u n) n).id m =
        if m / 4 < n + 1 then g ^ (m / 4) * u (m % 4) else g ^ (m / 4) := by
      have h := evalIDLoop_id c g sh0 sh1 u (n + 1) m
      rw [evalIDLoop] at h
      exact h
    rw [evalIDLoop, evalIDStep_uuid, ih (by omega), hid]
    by_cases hw : m = n ∨ m = n + c ∨ m = n + 2 * c ∨ m = n + 3 * c
    · have hmc : m % c = n := by
        rcases hw with rfl | rfl | rfl | rfl
        · exact Nat.mod_eq_of_lt hnc
        · rw [Nat.add_mod_right]
          exact Nat.mod_eq_of_lt hnc
        · rw [show n + 2 * c = n + c + c by ring, Nat.add_mod_right, Nat.add_mod_right]
          exact Nat.mod_eq_of_lt hnc
        · rw [show n + 3 * c = n + c + c + c by ring, Nat.add_mod_right,
            Nat.add_mod_right, Nat.add_mod_right]
          exact Nat.mod_eq_of_lt hnc
      have hm4c : m < 4 * c := by rcases hw with rfl | rfl | rfl | rfl <;> omega
      rw [if_pos hw, if_pos (show m % c < n + 1 ∧ m < 4 * c from
        ⟨by rw [hmc]; omega, hm4c⟩), hmc]
      by_cases hq : m / 4 ≤ n
      · rw [if_pos (show m / 4 < n + 1 by omega), if_pos hq]
      · rw [if_neg (show ¬(m / 4 < n + 1) by omega), if_neg hq]
    · rw [if_neg hw]
      by_cases hprev : m % c < n ∧ m < 4 * c
      · rw [if_pos hprev, if_pos (show m % c < n + 1 ∧ m < 4 * c from
          ⟨Nat.lt_succ_of_lt hprev.1, hprev.2⟩)]
      · rw [if_neg hprev, if_neg (show ¬(m % c < n + 1 ∧ m < 4 * c) from ?_)]
        rintro ⟨ha, hb⟩
        have hle : m % c ≤ n := Nat.lt_succ_iff.mp ha
        have hge : ¬(m % c < n) := fun hlt => hprev ⟨hlt, hb⟩
        have hmn : m % c = n := Nat.le_antisymm hle (Nat.le_of_not_lt hge)
        exact hw (mod_decompose c n m hmn hb)


/-- Claim C4 as amended: at extended index 4i+j, evalConstraintOrdering
returns Zu times the s1/s2/s3 permutation factors times L, minus Z times the
identity factors times L (the accumulators are exchanged relative to the
claim), where the identity value and its Shifter[0] multiple are correct at
every extended point, while the o-wire identity vector misses the
finer-generator coset factor at the entries read before the in-place coset
multiplication reached them (exactly when i exceeds (4i+j) mod N). -/
theorem evalConstraintOrdering_entries [Field F] (pd : PublicRaw F)
    (z zu evalL evalR evalO : List F) (gamma : F) (i j : Nat)
    (hi : i < pd.DomainNum.Cardinality) (hj : j < 4) :
    (evalConstraintOrdering pd z zu evalL evalR evalO gamma).getD (4 * i + j) 0 =
      orderingCodeAt pd z zu evalL evalR evalO gamma i j := by
  have hm : 4 * i + j < 4 * pd.DomainNum.Cardinality := by omega
  simp only [evalConstraintOrdering, evalIDCosets]
  rw [getD_ofFn_eq _ _ hm]
  simp only [evalIDLoop_id, evalIDLoop_uid, evalIDLoop_uuid _ _ _ _ _ _ _ (le_refl _)]
  have hc : 0 < pd.DomainNum.Cardinality := by omega
  rw [show (4 * i + j) / 4 = i by omega, show (4 * i + j) % 4 = j by omega,
    cosetShifts_eq _ _ hj, if_pos hi, if_pos hi,
    if_pos (show (4 * i + j) % pd.DomainNum.Cardinality < pd.DomainNum.Cardinality ∧
      4 * i + j < 4 * pd.DomainNum.Cardinality from ⟨Nat.mod_lt _ hc, hm⟩)]
  simp only [orderingCodeAt]
  by_cases hP : i ≤ (4 * i + j) % pd.DomainNum.Cardinality
  · rw [if_pos hP, if_pos hP]
    ring
  · rw [if_neg hP, if_neg hP]
    ring

/-- Counterexample to claim C4 as stated: at the concrete instance, index 0
refutes the claim formula (the shifted accumulator multiplies the permutation
factors, not the identity factors), and index 4 refutes even the
swap-corrected formula with a correctly evaluated identity (the uuid entry
read stale data). -/
theorem evalConstraintOrdering_claim_false :
    (evalConstraintOrdering pdBase17 [1, 0] [2, 0] (List.replicate 8 1)
        (List.replicate 8 0) (List.replicate 8 0) 1).getD 0 0 ≠
      orderingSpecAt pdBase17 [1, 0] [2, 0] (List.replicate 8 1)
        (List.replicate 8 0) (List.replicate 8 0) 1 0 ∧
    (evalConstraintOrdering pdBase17 [1, 0] [2, 0] (List.replicate 8 1)
        (List.replicate 8 0) (List.replicate 8 0) 1).getD 4 0 ≠
      orderingSwapSpecAt pdBase17 [1, 0] [2, 0] (List.replicate 8 1)
        (List.replicate 8 0) (List.replicate 8 0) 1 4 := by decide

/-- Witness for the amended claim C4 at the concrete instance, index 0. -/
theorem evalConstraintOrdering_entries_witness :
    (0 < pdBase17.DomainNum.Cardinality ∧ 0 < 4) ∧
      (evalConstraintOrdering pdBase17 [1, 0] [2, 0] (List.replicate 8 1)
          (List.replicate 8 0) (List.replicate 8 0) 1).getD (4 * 0 + 0) 0 =
        orderingCodeAt pdBase17 [1, 0] [2, 0] (List.replicate 8 1)
          (List.replicate 8 0) (List.replicate 8 0) 1 0 0 :=
  ⟨⟨by decide, by decide⟩, evalConstraintOrdering_entries pdBase17 [1, 0] [2, 0]
    (List.replicate 8 1) (List.replicate 8 0) (List.replicate 8 0) 1 0 0
    (by decide) (by decide)⟩

/-- Claim C2 fails on the code: for the length-2 polynomial X, output index
4*0+2 of evaluateCosets is not the value of X at Generator^0 times
FinerGenerator^5 (buffers 2 and 3 are never transformed because the source
calls FFT twice on buffers 0 and 1 instead). -/
theorem evaluateCosets_not_coset_eval :
    (evaluateCosets d17 [0, 1]).getD 2 0 ≠
      evalPoly [0, 1] (d17.FinerGenerator ^ (2 * 2 + 1) * d17.Generator ^ 0) := by
  decide

/-- Claim C3 fails on the code: the gate-identity vector Prove hands to
computeH (built from the coset evaluations of Ql, Qr, Qm passed as the wire
buffers) differs at index 0 from Ql*L + Qr*R + Qm*L*R + Qo*O + Qk with L, R,
O the evaluations of the ComputeLRO wire polynomials. -/
theorem evalConstraints_gate_identity_diverges :
    (proveConstraintsInd pdQm17).getD 0 0 ≠
      gateIdentitySpecAt pdQm17 (ComputeLRO spr17 pdQm17 sol17).1
        (ComputeLRO spr17 pdQm17 sol17).2.1 (ComputeLRO spr17 pdQm17 sol17).2.2 0 := by
  decide

/-- Claim C5 fails on the code: at extended index 0 the division step of
computeH does not multiply the combined value by the inverse of the
vanishing polynomial X^N - 1 at that point (the source inverts the point
raised to the Nth power without subtracting one, and chains the later
multipliers through already-inverted values). -/
theorem computeH_vanishing_diverges :
    (computeHdivided pdBase17 (List.replicate 8 1) (List.replicate 8 0) 1).getD 0 0 ≠
      (computeHcombined pdBase17 (List.replicate 8 1) (List.replicate 8 0) 1).getD 0 0 *
        vanishingInvSpec pdBase17 0 := by
  decide

/-- Claim C6 fails on the code: with Shifter = (shifter0, shifter0^2) as the
spec defines the two shifters, the accumulator recurrence of ComputeZ does
not hold with the o-wire factor using shifter0^2 (the source squares
Shifter[1], so the o-wire factor actually uses shifter0^4). -/
theorem ComputeZ_recurrence_diverges :
    (ComputeZ [0, 0] [0, 0] [1, 0] pdBase17 1).getD 1 0 *
        (((0 : F17) + pdBase17.LS1.getD 0 0 + 1) * ((0 : F17) + pdBase17.LS2.getD 0 0 + 1) *
          ((1 : F17) + pdBase17.LS3.getD 0 0 + 1)) ≠
      (ComputeZ [0, 0] [0, 0] [1, 0] pdBase17 1).getD 0 0 *
        (((0 : F17) + pdBase17.DomainNum.Generator ^ 0 + 1) *
          ((0 : F17) + pdBase17.Shifter 0 * pdBase17.DomainNum.Generator ^ 0 + 1) *
          ((1 : F17) + pdBase17.Shifter 0 ^ 2 * pdBase17.DomainNum.Generator ^ 0 + 1)) := by
  decide

/-- Claim C1 fails on the code: Prove always returns the zero Proof literal
of its final line, for every circuit and every field, while the proof value
populated during the call has a nonzero claimed evaluation at the concrete
instance (so the populated proof is discarded). -/
theorem Prove_returns_empty :
    (∀ (G B OP : Type) [Field G] (b0 : B) (o0 : OP) (consts : Consts G)
      (spr : SparseR1CS) (pd : PublicRaw G)
      (batchOpen : G → G → List G → List G → List G → List G → List G → B)
      (openProof : G → List G → OP) (solveRes : List G × Bool),
        Prove consts spr pd batchOpen openProof b0 o0 solveRes = emptyProof b0 o0) ∧
      (proveAssembled c17 spr17 pdBase17 mkBatch mkOpen (sol17, false)).LROHZ 0 ≠ 0 :=
  ⟨by intros G B OP instF b0 o0 consts spr pd batchOpen openProof solveRes; rfl, by decide⟩

/-- Counterexample to claim C9: at a concrete instance Prove returns
normally, and identically, whether the solver reported failure or success,
and the proving pipeline still runs on the failed solve's assignment (the
assembled value is nonzero); nothing is surfaced to the caller. -/
theorem Prove_ignores_solver_failure :
    Prove c17 spr17 pdBase17 mkBatch mkOpen () () (sol17, true) =
        Prove c17 spr17 pdBase17 mkBatch mkOpen () () (sol17, false) ∧
      (proveAssembled c17 spr17 pdBase17 mkBatch mkOpen (sol17, true)).LROHZ 0 ≠ 0 :=
  ⟨rfl, by decide⟩

/-- Claim C9 as amended: Prove discards the solver's error component; both
the returned Proof and the internally assembled proof are computed
identically regardless of the solve's success flag. -/
theorem Prove_solver_error_irrelevant :
    ∀ (G B OP : Type) [Field G] (b0 : B) (o0 : OP) (consts : Consts G)
      (spr : SparseR1CS) (pd : PublicRaw G)
      (batchOpen : G → G → List G → List G → List G → List G → List G → B)
      (openProof : G → List G → OP) (sol : List G) (b1 b2 : Bool),
        Prove consts spr pd batchOpen openProof b0 o0 (sol, b1) =
            Prove consts spr pd batchOpen openProof b0 o0 (sol, b2) ∧
          proveAssembled consts spr pd batchOpen openProof (sol, b1) =
            proveAssembled consts spr pd batchOpen openProof (sol, b2) :=
  by intros; exact ⟨rfl, rfl⟩

end Plonk
